import Mathlib

/-!
Verification of the movement, collision and agent-decision engine of a
grid-based arcade simulation (`pacman.py`).  Continuous positions are
modelled as rationals, Python's `round` (banker's rounding) as `pyRound`,
Python sets as `Finset`, and the global random source as an explicit
stream of list permutation functions threaded through the tick.
-/

/-- The fixed maze layout, copied verbatim from `MAZE_LAYOUT`. -/
def MAZE_LAYOUT : List String := [
  "############################",
  "#............##............#",
  "#.####.#####.##.#####.####.#",
  "#o####.#####.##.#####.####o#",
  "#.####.#####.##.#####.####.#",
  "#..........................#",
  "#.####.##.########.##.####.#",
  "#.####.##.########.##.####.#",
  "#......##....##....##......#",
  "######.##### ## #####.######",
  "     #.##### ## #####.#     ",
  "     #.##          ##.#     ",
  "     #.## ###GG### ##.#     ",
  "######.## #      # ##.######",
  "      .   # PPPP #   .      ",
  "######.## #      # ##.######",
  "     #.## ######## ##.#     ",
  "     #.##          ##.#     ",
  "     #.##### ## #####.#     ",
  "######.##### ## #####.######",
  "#............##............#",
  "#.####.#####.##.#####.####.#",
  "#o..##................##..o#",
  "###.##.##.########.##.##.###",
  "#......##....##....##......#",
  "#.##########.##.##########.#",
  "#..........................#",
  "############################"]

/-- `ROWS = len(MAZE_LAYOUT)`. -/
def ROWS : ℕ := MAZE_LAYOUT.length

/-- `COLS = len(MAZE_LAYOUT[0])`. -/
def COLS : ℕ := (MAZE_LAYOUT.headI).length

/-- Character of the layout at column `c`, row `r` (callers guard bounds). -/
def mazeChar (c r : ℤ) : Char :=
  (((MAZE_LAYOUT.get? r.toNat).getD "").data.get? c.toNat).getD '#'

/-- `is_wall(col, row)`: any out-of-bounds coordinate or `#` cell is a wall. -/
def is_wall (c r : ℤ) : Bool :=
  if 0 ≤ r ∧ r < (ROWS : ℤ) ∧ 0 ≤ c ∧ c < (COLS : ℤ) then mazeChar c r == '#'
  else true

/-- `valid_cell(col, row)`: in bounds and not a wall. -/
def valid_cell (c r : ℤ) : Bool :=
  decide (0 ≤ r ∧ r < (ROWS : ℤ) ∧ 0 ≤ c ∧ c < (COLS : ℤ)) && !is_wall c r

/-- Python 3 `round` on exact rationals: round half to even. -/
def pyRound (q : ℚ) : ℤ :=
  let f := ⌊q⌋
  if q - (f : ℚ) < 1/2 then f
  else if 1/2 < q - (f : ℚ) then f + 1
  else if f % 2 = 0 then f else f + 1

/-- If `q` is within 1/2 of the integer `m` then `pyRound q = m`. -/
theorem pyRound_near (q : ℚ) (m : ℤ) (h : |q - (m : ℚ)| < 1/2) : pyRound q = m := by
  rw [abs_sub_lt_iff] at h
  obtain ⟨h1, h2⟩ := h
  unfold pyRound
  rcases le_or_lt (m : ℚ) q with hq | hq
  · have hf : ⌊q⌋ = m := by
      apply Int.floor_eq_iff.mpr
      constructor
      · exact_mod_cast hq
      · linarith
    simp only [hf]
    rw [if_pos (by linarith)]
  · have hf : ⌊q⌋ = m - 1 := by
      apply Int.floor_eq_iff.mpr
      constructor
      · push_cast
        linarith
      · push_cast
        linarith
    simp only [hf]
    rw [if_neg (by push_cast; linarith), if_pos (by push_cast; linarith)]
    ring

/-- Kinematic entity shared by the player and the pursuers. -/
structure Entity where
  col : ℚ
  row : ℚ
  dir : ℤ × ℤ
  speed : ℚ
deriving DecidableEq

/-- `cell_centered`: both coordinates within 0.1 of the nearest integers. -/
def cell_centered (e : Entity) : Bool :=
  decide (|e.col - (pyRound e.col : ℚ)| < 1/10 ∧ |e.row - (pyRound e.row : ℚ)| < 1/10)

/-- `set_dir_if_valid`: commit a direction and snap to the cell center when
the target cell is walkable. -/
def set_dir_if_valid (e : Entity) (d : ℤ × ℤ) : Entity :=
  let ncol := pyRound (e.col + (d.1 : ℚ))
  let nrow := pyRound (e.row + (d.2 : ℚ))
  if valid_cell ncol nrow then
    { e with dir := d, col := (pyRound e.col : ℚ), row := (pyRound e.row : ℚ) }
  else e

/-- Candidate column of `update_move` before wraparound. -/
def nextCol (e : Entity) (dt : ℚ) : ℚ := e.col + (e.dir.1 : ℚ) * e.speed * dt

/-- Candidate row of `update_move`. -/
def nextRow (e : Entity) (dt : ℚ) : ℚ := e.row + (e.dir.2 : ℚ) * e.speed * dt

/-- `steps = max(1, int(max(|dcol|, |drow|) * 4))`. -/
def stepsOf (e : Entity) (dt : ℚ) : ℕ :=
  max 1 (Int.toNat ⌊max |nextCol e dt - e.col| |nextRow e dt - e.row| * 4⌋)

/-- Horizontal tunnel wraparound applied to a raw column. -/
def wrapQ (q : ℚ) : ℚ :=
  if q < 0 then (COLS : ℚ) - 1 else if (COLS : ℚ) ≤ q then 0 else q

/-- Interpolated (and wrapped) column of the `i`-th collision sample. -/
def sampleCol (e : Entity) (dt : ℚ) (i : ℕ) : ℚ :=
  wrapQ (e.col + (nextCol e dt - e.col) * (((i : ℚ) + 1) / (stepsOf e dt : ℚ)))

/-- Interpolated row of the `i`-th collision sample (no vertical wrap). -/
def sampleRow (e : Entity) (dt : ℚ) (i : ℕ) : ℚ :=
  e.row + (nextRow e dt - e.row) * (((i : ℚ) + 1) / (stepsOf e dt : ℚ))

/-- All sub-step samples round to non-wall cells. -/
def moveClear (e : Entity) (dt : ℚ) : Bool :=
  (List.range (stepsOf e dt)).all
    (fun i => !is_wall (pyRound (sampleCol e dt i)) (pyRound (sampleRow e dt i)))

/-- `update_move(dt)`: sub-stepped wall-checked advance with tunnel wrap. -/
def update_move (e : Entity) (dt : ℚ) : Entity :=
  if moveClear e dt then
    { e with col := wrapQ (nextCol e dt), row := nextRow e dt }
  else e

/-- Positive step count of the sampling loop. -/
theorem stepsOf_pos (e : Entity) (dt : ℚ) : 0 < stepsOf e dt :=
  Nat.lt_of_lt_of_le Nat.zero_lt_one (le_max_left _ _)

/-- The last collision sample coincides with the committed wrapped position. -/
theorem sample_last (e : Entity) (dt : ℚ) :
    sampleCol e dt (stepsOf e dt - 1) = wrapQ (nextCol e dt) ∧
    sampleRow e dt (stepsOf e dt - 1) = nextRow e dt := by
  have hpos := stepsOf_pos e dt
  have hne : ((stepsOf e dt : ℚ)) ≠ 0 := by
    exact_mod_cast Nat.pos_iff_ne_zero.mp hpos
  have hcast : ((stepsOf e dt - 1 : ℕ) : ℚ) + 1 = (stepsOf e dt : ℚ) := by
    have : (stepsOf e dt - 1) + 1 = stepsOf e dt := Nat.succ_pred_eq_of_pos hpos
    exact_mod_cast congrArg (Nat.cast : ℕ → ℚ) this
  constructor
  · unfold sampleCol
    rw [hcast, div_self hne]
    ring_nf
  · unfold sampleRow
    rw [hcast, div_self hne]
    ring_nf

/-- Row-major list of all grid cells, mirroring the maze construction scan. -/
def cellList : List (ℕ × ℕ) :=
  (List.range ROWS).flatMap (fun r => (List.range COLS).map (fun c => (c, r)))

/-- Cells of the layout holding the character `ch`, in scan order. -/
def cellsWith (ch : Char) : List (ℤ × ℤ) :=
  (cellList.filter (fun p => mazeChar (p.1 : ℤ) (p.2 : ℤ) == ch)).map
    (fun p => ((p.1 : ℤ), (p.2 : ℤ)))

/-- Initial pellet set of a fresh `Maze`. -/
def initPellets : Finset (ℤ × ℤ) := (cellsWith '.').toFinset

/-- Initial power-pellet set of a fresh `Maze`. -/
def initPowerPellets : Finset (ℤ × ℤ) := (cellsWith 'o').toFinset

/-- `Maze.player_start`: first `P` cell, with the grid-center fallback. -/
def playerStart : ℤ × ℤ :=
  match cellsWith 'P' with
  | [] => ((COLS : ℤ) / 2, (ROWS : ℤ) / 2)
  | c :: _ => c

/-- `Maze.ghost_starts`: all `G` cells in scan order, with the fallback pair. -/
def ghostStarts : List (ℤ × ℤ) :=
  match cellsWith 'G' with
  | [] => [((COLS : ℤ) / 2 - 1, (ROWS : ℤ) / 2), ((COLS : ℤ) / 2 + 1, (ROWS : ℤ) / 2)]
  | l => l

/-- Mutable part of the `Maze` object (the start cells are layout constants). -/
structure MazeState where
  pellets : Finset (ℤ × ℤ)
  power_pellets : Finset (ℤ × ℤ)
deriving DecidableEq

/-- A fresh `Maze()`. -/
def initMaze : MazeState := ⟨initPellets, initPowerPellets⟩

/-- Player agent state. -/
structure Player where
  ent : Entity
  next_dir : ℤ × ℤ
  lives : ℤ
  score : ℤ
deriving DecidableEq

/-- `Player(col, row)` constructor. -/
def mkPlayer (c : ℤ × ℤ) : Player :=
  ⟨⟨(c.1 : ℚ), (c.2 : ℚ), (0, 0), 8⟩, (0, 0), 3, 0⟩

/-- Pursuer agent state (`color` is render-only and omitted). -/
structure Ghost where
  ent : Entity
  base_speed : ℚ
  frightened : Bool
  eaten : Bool
  home : ℤ × ℤ
deriving DecidableEq

/-- `Ghost(col, row, color)` constructor. -/
def mkGhost (c : ℤ × ℤ) : Ghost :=
  ⟨⟨(c.1 : ℚ), (c.2 : ℚ), (0, 0), 6⟩, 6, false, false, c⟩

instance : Inhabited Ghost := ⟨mkGhost (0, 0)⟩

/-- Global game mode. -/
inductive Mode where
  | playing
  | power
  | gameover
deriving DecidableEq

/-- Whole round state owned by the controller. -/
structure GameState where
  maze : MazeState
  player : Player
  ghosts : List Ghost
  state : Mode
  power_timer : ℚ
deriving DecidableEq

/-- Rounded cell of the player, as computed by `int(round(...))`. -/
def pcellOf (s : GameState) : ℤ × ℤ :=
  (pyRound s.player.ent.col, pyRound s.player.ent.row)

/-- Rounded cell of a pursuer. -/
def gcellOf (g : Ghost) : ℤ × ℤ := (pyRound g.ent.col, pyRound g.ent.row)

/-- Stable insertion into a key-sorted list (Python's `list.sort` is stable). -/
def insertByKey (key : ℤ × ℤ → ℤ) (x : ℤ × ℤ) : List (ℤ × ℤ) → List (ℤ × ℤ)
  | [] => [x]
  | y :: ys => if key x ≤ key y then x :: y :: ys else y :: insertByKey key x ys

/-- Stable sort by an integer key, as `options.sort(key=...)`. -/
def sortByKey (key : ℤ × ℤ → ℤ) : List (ℤ × ℤ) → List (ℤ × ℤ)
  | [] => []
  | x :: xs => insertByKey key x (sortByKey key xs)

/-- `available_dirs`: axis directions whose neighbour cell is walkable. -/
def available_dirs (e : Entity) : List (ℤ × ℤ) :=
  [(-1, 0), (1, 0), (0, -1), (0, 1)].filter
    (fun d => valid_cell (pyRound (e.col + (d.1 : ℚ))) (pyRound (e.row + (d.2 : ℚ))))

/-- The player's guarded turn attempt (`Player.update` lines 217-219). -/
def turnStep (e : Entity) (d : ℤ × ℤ) : Entity :=
  if cell_centered e ∧ d ≠ e.dir then set_dir_if_valid e d else e

/-- `Player.update`: turn attempt, advance, then pellet consumption; the
Boolean result is the `'power'` mode-transition signal. -/
def player_update (m : MazeState) (p : Player) (dt : ℚ) : MazeState × Player × Bool :=
  let e2 := update_move (turnStep p.ent p.next_dir) dt
  let cr := (pyRound e2.col, pyRound e2.row)
  let pel := if cr ∈ m.pellets then m.pellets.erase cr else m.pellets
  let s1 := p.score + (if cr ∈ m.pellets then 10 else 0)
  if cr ∈ m.power_pellets then
    (⟨pel, m.power_pellets.erase cr⟩, { p with ent := e2, score := s1 + 50 }, true)
  else
    (⟨pel, m.power_pellets⟩, { p with ent := e2, score := s1 }, false)

/-- Squared grid distance from the cell one step in `d` to the target cell. -/
def distSqAfter (e : Entity) (d : ℤ × ℤ) (t : ℤ × ℤ) : ℤ :=
  (pyRound e.col + d.1 - t.1) ^ 2 + (pyRound e.row + d.2 - t.2) ^ 2

/-- The kinematic effect of `Ghost.update`: speed from the behavioural
state, per-intersection decision, then advance.  The Boolean records
whether the random shuffle was consumed. -/
def ghost_decide (g : Ghost) (dt : ℚ) (ppos : ℤ × ℤ)
    (shuffle : List (ℤ × ℤ) → List (ℤ × ℤ)) : Entity × Bool :=
  let spd := if g.eaten then g.base_speed * (6/5)
             else if g.frightened then g.base_speed * (3/5)
             else g.base_speed
  let e0 : Entity := { g.ent with speed := spd }
  if cell_centered e0 then
    let options0 := available_dirs e0
    let opposite : ℤ × ℤ := (-e0.dir.1, -e0.dir.2)
    let options := if 1 < options0.length ∧ opposite ∈ options0
                   then options0.erase opposite else options0
    if options = [] then
      (update_move e0 dt, false)
    else if g.eaten then
      let e1 := { e0 with dir := (sortByKey (fun d => distSqAfter e0 d g.home) options).headI }
      (update_move e1 dt, false)
    else if g.frightened then
      let e1 := { e0 with dir := (sortByKey (fun d => -distSqAfter e0 d ppos) options).headI }
      (update_move e1 dt, false)
    else
      let e1 := { e0 with dir := (sortByKey (fun d => distSqAfter e0 d ppos) (shuffle options)).headI }
      (update_move e1 dt, true)
  else
    (update_move e0 dt, false)

/-- `Ghost.update` mutates only the kinematic part of the pursuer. -/
def ghost_update (g : Ghost) (dt : ℚ) (ppos : ℤ × ℤ)
    (shuffle : List (ℤ × ℤ) → List (ℤ × ℤ)) : Ghost × Bool :=
  ({ g with ent := (ghost_decide g dt ppos shuffle).1 },
   (ghost_decide g dt ppos shuffle).2)

/-- Update every pursuer against the single player-cell snapshot, threading
the call counter of the global random source. -/
def ghosts_update (dt : ℚ) (ppos : ℤ × ℤ)
    (rng : ℕ → List (ℤ × ℤ) → List (ℤ × ℤ)) :
    List Ghost → ℕ → List Ghost × ℕ
  | [], k => ([], k)
  | g :: gs, k =>
    let r := ghost_update g dt ppos (rng k)
    let rest := ghosts_update dt ppos rng gs (if r.2 then k + 1 else k)
    (r.1 :: rest.1, rest.2)

/-- The per-pursuer effect of `set_power_mode`: only non-eaten pursuers
become frightened. -/
def powerFlip (g : Ghost) : Ghost :=
  if g.eaten = false then { g with frightened := true } else g

/-- `Game.set_power_mode`. -/
def set_power_mode (s : GameState) : GameState :=
  { s with state := Mode.power, power_timer := 8, ghosts := s.ghosts.map powerFlip }

/-- `Game.update_power_timer`: note that on expiry the source line
`g.eaten = False if g.eaten else g.eaten` assigns `False` in both branches. -/
def update_power_timer (s : GameState) (dt : ℚ) : GameState :=
  if s.state = Mode.power then
    if s.power_timer - dt ≤ 0 then
      { s with state := Mode.playing, power_timer := s.power_timer - dt,
               ghosts := s.ghosts.map
                 (fun g => { g with frightened := false,
                                    eaten := if g.eaten then false else g.eaten }) }
    else { s with power_timer := s.power_timer - dt }
  else s

/-- `Game.lose_life_and_reset_positions`. -/
def lose_life (s : GameState) : GameState :=
  { s with
    player := { s.player with
      lives := s.player.lives - 1,
      ent := { s.player.ent with col := (playerStart.1 : ℚ), row := (playerStart.2 : ℚ),
                                 dir := (0, 0) } },
    ghosts := s.ghosts.enum.map (fun ig =>
      let gs := ghostStarts.getD (ig.1 % ghostStarts.length) (0, 0)
      { ig.2 with ent := { ig.2.ent with col := (gs.1 : ℚ), row := (gs.2 : ℚ), dir := (0, 0) },
                  frightened := false, eaten := false }),
    state := Mode.playing,
    power_timer := 0 }

/-- Eating a frightened pursuer. -/
def eat_ghost (g : Ghost) : Ghost := { g with eaten := true, frightened := false }

/-- The collision loop of `Game.handle_collisions`: `done` holds the already
processed pursuers in reverse; a capture rebuilds the full list and stops. -/
def collide_aux (pcell : ℤ × ℤ) : GameState → List Ghost → List Ghost → GameState
  | s, [], done => { s with ghosts := done.reverse }
  | s, g :: rest, done =>
    if gcellOf g = pcell then
      if g.frightened = true ∧ g.eaten = false then
        collide_aux pcell
          { s with player := { s.player with score := s.player.score + 200 } }
          rest (eat_ghost g :: done)
      else if g.eaten = false then
        lose_life { s with ghosts := done.reverse ++ g :: rest }
      else collide_aux pcell s rest (g :: done)
    else collide_aux pcell s rest (g :: done)

/-- Home-revival of eaten pursuers (second loop of `handle_collisions`). -/
def reviveGhost (g : Ghost) : Ghost :=
  if g.eaten = true ∧ gcellOf g = g.home then { g with eaten := false, frightened := false }
  else g

/-- The revival pass over the whole pursuer list. -/
def reviveAll (s : GameState) : GameState :=
  { s with ghosts := s.ghosts.map reviveGhost }

/-- `Game.handle_collisions`: the capture loop, then home revival. -/
def handle_collisions (s : GameState) : GameState :=
  reviveAll (collide_aux (pcellOf s) s s.ghosts [])

/-- Fresh player of `reset_level`. -/
def freshPlayer : Player := mkPlayer playerStart

/-- Fresh pursuers of `reset_level` (`min(4, len(starts))` of them). -/
def freshGhosts : List Ghost := (ghostStarts.take 4).map mkGhost

/-- `reset_level(full_reset=False)` followed by the score/lives restore. -/
def reset_level_soft (s : GameState) : GameState :=
  { maze := initMaze,
    player := { freshPlayer with score := s.player.score, lives := s.player.lives },
    ghosts := freshGhosts,
    state := Mode.playing,
    power_timer := 0 }

/-- `reset_level(full_reset=True)`: the initial game state. -/
def initState : GameState :=
  { maze := initMaze, player := freshPlayer, ghosts := freshGhosts,
    state := Mode.playing, power_timer := 0 }

/-- Input phase: at most one raw direction becomes `next_dir`. -/
def inputPhase (s : GameState) (inp : Option (ℤ × ℤ)) : GameState :=
  { s with player := { s.player with next_dir := inp.getD s.player.next_dir } }

/-- Player movement and pellet consumption phase of `Game.update`. -/
def moveEatPhase (s : GameState) (dt : ℚ) : GameState × Bool :=
  let r := player_update s.maze s.player dt
  ({ s with maze := r.1, player := r.2.1 }, r.2.2)

/-- Power activation phase of `Game.update`. -/
def powerPhase (x : GameState × Bool) : GameState :=
  if x.2 then set_power_mode x.1 else x.1

/-- Pursuer phase of `Game.update`: all pursuers read the one snapshot. -/
def ghostPhase (s : GameState) (dt : ℚ)
    (rng : ℕ → List (ℤ × ℤ) → List (ℤ × ℤ)) : GameState :=
  { s with ghosts := (ghosts_update dt (pcellOf s) rng s.ghosts 0).1 }

/-- Round-clear phase of `Game.update`. -/
def clearPhase (s : GameState) : GameState :=
  if s.maze.pellets = ∅ ∧ s.maze.power_pellets = ∅ then reset_level_soft s else s

/-- Game-over phase of `Game.update`. -/
def gameOverPhase (s : GameState) : GameState :=
  if s.player.lives ≤ 0 then { s with state := Mode.gameover } else s

/-- One full tick of `Game.update(dt)`. -/
def tick (s : GameState) (inp : Option (ℤ × ℤ)) (dt : ℚ)
    (rng : ℕ → List (ℤ × ℤ) → List (ℤ × ℤ)) : GameState :=
  update_power_timer
    (gameOverPhase (clearPhase (handle_collisions
      (ghostPhase (powerPhase (moveEatPhase (inputPhase s inp) dt)) dt rng)))) dt

/-- States reachable from a fresh game by ticks (a restart recreates
exactly `initState`, so it adds no new states). -/
inductive Reachable : GameState → Prop
  | init : Reachable initState
  | step (s : GameState) (inp : Option (ℤ × ℤ)) (dt : ℚ)
      (rng : ℕ → List (ℤ × ℤ) → List (ℤ × ℤ)) :
      Reachable s → Reachable (tick s inp dt rng)

/-- In the commit case of `update_move` every sample was checked, so the
committed wrapped position rounds to a non-wall cell. -/
theorem update_move_commit_not_wall (e : Entity) (dt : ℚ) (h : moveClear e dt = true) :
    is_wall (pyRound (wrapQ (nextCol e dt))) (pyRound (nextRow e dt)) = false := by
  have hmem : stepsOf e dt - 1 ∈ List.range (stepsOf e dt) :=
    List.mem_range.mpr (Nat.sub_lt (stepsOf_pos e dt) Nat.one_pos)
  have := (List.all_eq_true.mp h) _ hmem
  obtain ⟨hc, hr⟩ := sample_last e dt
  rw [hc, hr] at this
  simpa using this

/-- C2: for every entity whose pre-advance position rounds to a non-wall
cell, and for every direction, speed and `dt`, the position after
`update_move` (sub-step sampling plus horizontal tunnel wraparound) rounds
to a cell for which `is_wall` is false. -/
theorem advance_never_lands_in_wall (e : Entity) (dt : ℚ)
    (h : is_wall (pyRound e.col) (pyRound e.row) = false) :
    is_wall (pyRound (update_move e dt).col) (pyRound (update_move e dt).row) = false := by
  unfold update_move
  by_cases hc : moveClear e dt = true
  · rw [if_pos hc]
    exact update_move_commit_not_wall e dt hc
  · rw [if_neg hc]
    exact h

/-- Witness for C2: a concrete moving entity on the pellet row. -/
theorem advance_never_lands_in_wall_witness :
    is_wall (pyRound (update_move ⟨1, 1, (1, 0), 8⟩ (1/60)).col)
            (pyRound (update_move ⟨1, 1, (1, 0), 8⟩ (1/60)).row) = false :=
  advance_never_lands_in_wall ⟨1, 1, (1, 0), 8⟩ (1/60) (by with_unfolding_all decide)

/-- Concrete entity refuting C3 as stated: its committed column equals the
last column `COLS - 1 = 27`. -/
def tunnelEntity : Entity := ⟨107/4, 14, (1, 0), 1⟩

/-- C3 counterexample: this entity's committed column is at the last column
(`COLS - 1`), yet after `update_move` it ends at column `27`, not at
column `0` as the claim's "at or beyond the last column" condition
requires. -/
theorem tunnel_wrap_at_last_column_cex :
    ((COLS : ℚ) - 1 ≤ nextCol tunnelEntity (1/4)) ∧
    (update_move tunnelEntity (1/4)).col = 27 ∧
    (update_move tunnelEntity (1/4)).col ≠ 0 := by
  refine ⟨?_, ?_, ?_⟩ <;> with_unfolding_all decide

/-- C3 (amended): the committed wraparound is symmetric and preserves the
row, with the wrap-to-zero condition being `COLS ≤ col` (strictly beyond
the last column), not `COLS - 1 ≤ col`: either the move aborts and the
entity is unchanged, or the committed column below `0` becomes `COLS - 1`,
a committed column at or beyond `COLS` becomes `0`, any other committed
column is kept, and the committed row is never wrapped. -/
theorem tunnel_wrap_symmetric (e : Entity) (dt : ℚ) :
    update_move e dt = e ∨
    update_move e dt =
      { e with
        col := if nextCol e dt < 0 then (COLS : ℚ) - 1
               else if (COLS : ℚ) ≤ nextCol e dt then 0
               else nextCol e dt,
        row := nextRow e dt } := by
  unfold update_move
  by_cases hc : moveClear e dt = true
  · right
    rw [if_pos hc]
    rfl
  · left
    rw [if_neg hc]

/-- A state exhibiting the timer-expiry behaviour on a retreating pursuer. -/
def expiryState : GameState :=
  { maze := ⟨{((1 : ℤ), (1 : ℤ))}, ∅⟩,
    player := mkPlayer playerStart,
    ghosts := [{ mkGhost (13, 12) with eaten := true }],
    state := Mode.power,
    power_timer := 1/100 }

/-- C1 counterexample: at timer expiry this RETREATING pursuer does not
keep its eaten flag — `update_power_timer` clears it, because the source
line `g.eaten = False if g.eaten else g.eaten` assigns `False` in both
branches. -/
theorem timer_expiry_clears_eaten_cex :
    expiryState.state = Mode.power ∧
    expiryState.power_timer - 1/50 ≤ 0 ∧
    (expiryState.ghosts.headI).eaten = true ∧
    ((update_power_timer expiryState (1/50)).ghosts.headI).eaten = false := by
  refine ⟨?_, ?_, ?_, ?_⟩ <;> with_unfolding_all decide

/-- C1 (amended): when the power timer reaches `≤ 0` while the mode is
POWER, the controller clears the FRIGHTENED flag on every pursuer and also
clears every pursuer's eaten flag, so a RETREATING pursuer is forcibly
revived by timer expiry rather than continuing to retreat. -/
theorem timer_expiry_clears_flags (s : GameState) (dt : ℚ)
    (hs : s.state = Mode.power) (ht : s.power_timer - dt ≤ 0) :
    (update_power_timer s dt).state = Mode.playing ∧
    ∀ g ∈ (update_power_timer s dt).ghosts, g.frightened = false ∧ g.eaten = false := by
  unfold update_power_timer
  rw [if_pos hs, if_pos ht]
  refine ⟨rfl, ?_⟩
  intro g hg
  simp only [List.mem_map] at hg
  obtain ⟨g0, _, hEq⟩ := hg
  subst hEq
  refine ⟨rfl, ?_⟩
  by_cases he : g0.eaten <;> simp [he]

/-- Witness for the amended C1 at the concrete expiry state. -/
theorem timer_expiry_clears_flags_witness :
    (update_power_timer expiryState (1/50)).state = Mode.playing ∧
    ∀ g ∈ (update_power_timer expiryState (1/50)).ghosts,
      g.frightened = false ∧ g.eaten = false :=
  timer_expiry_clears_flags expiryState (1/50) (by with_unfolding_all decide)
    (by with_unfolding_all decide)

/-- Shifting by an integer preserves `pyRound` away from half-points. -/
theorem pyRound_add_int (q : ℚ) (m n : ℤ) (h : |q - (m : ℚ)| < 1/2) :
    pyRound (q + (n : ℚ)) = m + n := by
  apply pyRound_near
  have : q + (n : ℚ) - ((m + n : ℤ) : ℚ) = q - (m : ℚ) := by push_cast; ring
  rw [this]
  exact h

/-- The propositional content of `cell_centered`. -/
theorem cell_centered_iff (e : Entity) :
    cell_centered e = true ↔
      |e.col - (pyRound e.col : ℚ)| < 1/10 ∧ |e.row - (pyRound e.row : ℚ)| < 1/10 := by
  unfold cell_centered
  exact decide_eq_true_iff

/-- Under centering, the code's target cell `round(col + dx)` agrees with
the claim's "one step from the rounded current cell". -/
theorem target_cell_eq (e : Entity) (d : ℤ × ℤ) (hc : cell_centered e = true) :
    pyRound (e.col + (d.1 : ℚ)) = pyRound e.col + d.1 ∧
    pyRound (e.row + (d.2 : ℚ)) = pyRound e.row + d.2 := by
  obtain ⟨h1, h2⟩ := (cell_centered_iff e).mp hc
  exact ⟨pyRound_add_int _ _ _ (by linarith [h1]),
         pyRound_add_int _ _ _ (by linarith [h2])⟩

/-- C4: the player's guarded turn attempt succeeds only when the entity is
cell-centered and the cell one step in the requested direction from the
rounded current cell is walkable; on success the direction becomes the
requested one and both coordinates snap exactly to the nearest integers;
in every other case the entity (direction and position) is unchanged. -/
theorem turn_request_spec (e : Entity) (d : ℤ × ℤ) :
    (turnStep e d ≠ e →
      cell_centered e = true ∧
      valid_cell (pyRound e.col + d.1) (pyRound e.row + d.2) = true) ∧
    (cell_centered e = true → d ≠ e.dir →
      valid_cell (pyRound e.col + d.1) (pyRound e.row + d.2) = true →
      turnStep e d =
        { e with dir := d, col := (pyRound e.col : ℚ), row := (pyRound e.row : ℚ) }) ∧
    (¬(cell_centered e = true ∧
        valid_cell (pyRound e.col + d.1) (pyRound e.row + d.2) = true) →
      turnStep e d = e) := by
  by_cases hcc : cell_centered e = true
  · obtain ⟨htc, htr⟩ := target_cell_eq e d hcc
    by_cases hd : d ≠ e.dir
    · have hstep : turnStep e d = set_dir_if_valid e d := by
        unfold turnStep
        rw [if_pos ⟨hcc, hd⟩]
      by_cases hv : valid_cell (pyRound e.col + d.1) (pyRound e.row + d.2) = true
      · have hset : set_dir_if_valid e d =
            { e with dir := d, col := (pyRound e.col : ℚ), row := (pyRound e.row : ℚ) } := by
          unfold set_dir_if_valid
          rw [htc, htr, if_pos hv]
        refine ⟨fun _ => ⟨hcc, hv⟩, fun _ _ _ => by rw [hstep, hset], fun hn => ?_⟩
        exact absurd ⟨hcc, hv⟩ hn
      · have hset : set_dir_if_valid e d = e := by
          unfold set_dir_if_valid
          rw [htc, htr, if_neg hv]
        refine ⟨fun hne => absurd (hstep.trans hset) hne, fun _ _ hv2 => absurd hv2 hv,
                fun _ => hstep.trans hset⟩
    · have hstep : turnStep e d = e := by
        unfold turnStep
        rw [if_neg (fun h => hd h.2)]
      exact ⟨fun hne => absurd hstep hne, fun _ hd2 _ => absurd hd2 hd, fun _ => hstep⟩
  · have hstep : turnStep e d = e := by
      unfold turnStep
      rw [if_neg (fun h => hcc h.1)]
    exact ⟨fun hne => absurd hstep hne, fun hc2 _ _ => absurd hc2 hcc, fun _ => hstep⟩

/-- Witness for C4: a successful snap-turn at a centered position, and a
rejected request at a non-centered position. -/
theorem turn_request_spec_witness :
    turnStep ⟨261/20, 14, (0, 0), 8⟩ (0, 1) = ⟨(13 : ℚ), (14 : ℚ), (0, 1), 8⟩ ∧
    turnStep ⟨27/2, 14, (1, 0), 8⟩ (1, 0) = ⟨27/2, 14, (1, 0), 8⟩ := by
  constructor
  · have h := (turn_request_spec ⟨261/20, 14, (0, 0), 8⟩ (0, 1)).2.1
      (by with_unfolding_all decide) (by with_unfolding_all decide)
      (by with_unfolding_all decide)
    rw [h]
    with_unfolding_all decide
  · exact (turn_request_spec ⟨27/2, 14, (1, 0), 8⟩ (1, 0)).2.2
      (by with_unfolding_all decide)

/-- Defining equation of `collide_aux` on the empty list. -/
theorem collide_aux_nil (pcell : ℤ × ℤ) (s : GameState) (done : List Ghost) :
    collide_aux pcell s [] done = { s with ghosts := done.reverse } := rfl

/-- Defining equation of `collide_aux` on a cons cell. -/
theorem collide_aux_cons (pcell : ℤ × ℤ) (s : GameState) (g : Ghost)
    (rest done : List Ghost) :
    collide_aux pcell s (g :: rest) done =
      if gcellOf g = pcell then
        if g.frightened = true ∧ g.eaten = false then
          collide_aux pcell
            { s with player := { s.player with score := s.player.score + 200 } }
            rest (eat_ghost g :: done)
        else if g.eaten = false then
          lose_life { s with ghosts := done.reverse ++ g :: rest }
        else collide_aux pcell s rest (g :: done)
      else collide_aux pcell s rest (g :: done) := rfl

/-- `collide_aux` walks past pursuers that do not share the player's cell. -/
theorem collide_aux_skip (pcell : ℤ × ℤ) (s : GameState) (pre rest done : List Ghost)
    (h : ∀ g ∈ pre, gcellOf g ≠ pcell) :
    collide_aux pcell s (pre ++ rest) done =
      collide_aux pcell s rest (pre.reverse ++ done) := by
  induction pre generalizing done with
  | nil => simp
  | cons g gs ih =>
    have hg : gcellOf g ≠ pcell := h g (List.mem_cons_self g gs)
    rw [List.cons_append, collide_aux_cons, if_neg hg,
        ih (g :: done) (fun x hx => h x (List.mem_cons_of_mem g hx))]
    simp

/-- A collision-free suffix leaves the controller state untouched. -/
theorem collide_aux_clean (pcell : ℤ × ℤ) (s : GameState) (rest done : List Ghost)
    (h : ∀ g ∈ rest, gcellOf g ≠ pcell) :
    collide_aux pcell s rest done = { s with ghosts := done.reverse ++ rest } := by
  have hskip := collide_aux_skip pcell s rest [] done h
  rw [List.append_nil] at hskip
  rw [hskip, collide_aux_nil]
  simp

/-- C6: resolving a collision with a pursuer that is FRIGHTENED and not
RETREATING (and is the only pursuer on the player's cell, away from its
home cell) adds exactly 200 to the score, turns exactly that pursuer into
a RETREATING one with its FRIGHTENED flag cleared, and leaves the player's
lives unchanged. -/
theorem frightened_capture_spec (s : GameState) (gs1 gs2 : List Ghost) (g : Ghost)
    (hg : s.ghosts = gs1 ++ g :: gs2)
    (hcell : gcellOf g = pcellOf s)
    (hf : g.frightened = true) (he : g.eaten = false)
    (hhome : gcellOf g ≠ g.home)
    (h1 : ∀ x ∈ gs1, gcellOf x ≠ pcellOf s)
    (h2 : ∀ x ∈ gs2, gcellOf x ≠ pcellOf s) :
    (handle_collisions s).player.score = s.player.score + 200 ∧
    (handle_collisions s).player.lives = s.player.lives ∧
    (handle_collisions s).ghosts.get? gs1.length = some (eat_ghost g) := by
  have hrun : collide_aux (pcellOf s) s s.ghosts [] =
      { s with player := { s.player with score := s.player.score + 200 },
               ghosts := gs1 ++ eat_ghost g :: gs2 } := by
    rw [hg, collide_aux_skip _ _ _ _ _ h1, collide_aux_cons, if_pos hcell,
        if_pos ⟨hf, he⟩, collide_aux_clean _ _ _ _ h2]
    simp
  unfold handle_collisions reviveAll
  rw [hrun]
  refine ⟨rfl, rfl, ?_⟩
  show ((gs1 ++ eat_ghost g :: gs2).map reviveGhost).get? gs1.length = some (eat_ghost g)
  rw [List.map_append, List.map_cons,
      List.get?_append_right (by simp), List.length_map, Nat.sub_self]
  show some (reviveGhost (eat_ghost g)) = some (eat_ghost g)
  unfold reviveGhost
  rw [if_neg]
  intro hand
  exact hhome hand.2

/-- Concrete frightened pursuer on the player's cell, away from home. -/
def eatState : GameState :=
  { maze := ⟨∅, ∅⟩,
    player := mkPlayer (1, 1),
    ghosts := [{ mkGhost (1, 1) with frightened := true, home := (13, 12) }],
    state := Mode.power,
    power_timer := 5 }

/-- Witness for C6 at a concrete single-pursuer collision. -/
theorem frightened_capture_spec_witness :
    (handle_collisions eatState).player.score = eatState.player.score + 200 ∧
    (handle_collisions eatState).player.lives = eatState.player.lives ∧
    (handle_collisions eatState).ghosts.get? 0 =
      some (eat_ghost { mkGhost (1, 1) with frightened := true, home := (13, 12) }) :=
  frightened_capture_spec eatState [] []
    { mkGhost (1, 1) with frightened := true, home := (13, 12) }
    rfl (by with_unfolding_all decide) rfl rfl (by with_unfolding_all decide)
    (by simp) (by simp)

/-- If some remaining pursuer triggers a capture, the collision loop ends
in `lose_life` with the score the only possibly changed player field and
with the full pursuer list rebuilt. -/
theorem collide_aux_capture (pcell : ℤ × ℤ) (rest : List Ghost) :
    ∀ (s : GameState) (done : List Ghost),
    (∃ g ∈ rest, gcellOf g = pcell ∧ g.frightened = false ∧ g.eaten = false) →
    ∃ p' gl, collide_aux pcell s rest done = lose_life { s with player := p', ghosts := gl } ∧
      p'.lives = s.player.lives ∧ gl.length = done.length + rest.length := by
  induction rest with
  | nil => intro s done h; simp at h
  | cons g gs ih =>
    intro s done h
    rw [collide_aux_cons]
    by_cases hcell : gcellOf g = pcell
    · rw [if_pos hcell]
      by_cases hfr : g.frightened = true ∧ g.eaten = false
      · rw [if_pos hfr]
        have htail : ∃ x ∈ gs, gcellOf x = pcell ∧ x.frightened = false ∧ x.eaten = false := by
          obtain ⟨x, hx, hxp⟩ := h
          rcases List.mem_cons.mp hx with hx0 | hx1
          · subst hx0; rw [hxp.2.1] at hfr; exact absurd hfr.1 (by simp)
          · exact ⟨x, hx1, hxp⟩
        obtain ⟨p', gl, heq, hl, hlen⟩ := ih
          { s with player := { s.player with score := s.player.score + 200 } }
          (eat_ghost g :: done) htail
        refine ⟨p', gl, ?_, hl, by simp at hlen ⊢; omega⟩
        rw [heq]
      · rw [if_neg hfr]
        by_cases hea : g.eaten = false
        · rw [if_pos hea]
          refine ⟨s.player, done.reverse ++ g :: gs, ?_, rfl, by simp⟩
          rfl
        · rw [if_neg hea]
          have htail : ∃ x ∈ gs, gcellOf x = pcell ∧ x.frightened = false ∧ x.eaten = false := by
            obtain ⟨x, hx, hxp⟩ := h
            rcases List.mem_cons.mp hx with hx0 | hx1
            · subst hx0; exact absurd hxp.2.2 hea
            · exact ⟨x, hx1, hxp⟩
          obtain ⟨p', gl, heq, hl, hlen⟩ := ih _ _ htail
          exact ⟨p', gl, heq, hl, by simp at hlen ⊢; omega⟩
    · rw [if_neg hcell]
      have htail : ∃ x ∈ gs, gcellOf x = pcell ∧ x.frightened = false ∧ x.eaten = false := by
        obtain ⟨x, hx, hxp⟩ := h
        rcases List.mem_cons.mp hx with hx0 | hx1
        · subst hx0; exact absurd hxp.1 hcell
        · exact ⟨x, hx1, hxp⟩
      obtain ⟨p', gl, heq, hl, hlen⟩ := ih _ _ htail
      exact ⟨p', gl, heq, hl, by simp at hlen ⊢; omega⟩

/-- Revival leaves non-eaten pursuers untouched. -/
theorem reviveGhost_of_not_eaten (g : Ghost) (h : g.eaten = false) :
    reviveGhost g = g := by
  unfold reviveGhost
  rw [if_neg]
  intro hand
  rw [h] at hand
  exact Bool.false_ne_true hand.1

/-- C7: a collision with a pursuer that is neither FRIGHTENED nor
RETREATING decrements lives by exactly one, respawns the player and every
pursuer at their start cells with direction `(0, 0)` and cleared flags,
and resets the mode to PLAYING with a zero power timer (the loop breaks,
so at most one capture is processed per tick). -/
theorem normal_capture_spec (s : GameState)
    (h : ∃ g ∈ s.ghosts, gcellOf g = pcellOf s ∧ g.frightened = false ∧ g.eaten = false) :
    (handle_collisions s).player.lives = s.player.lives - 1 ∧
    (handle_collisions s).player.ent.col = (playerStart.1 : ℚ) ∧
    (handle_collisions s).player.ent.row = (playerStart.2 : ℚ) ∧
    (handle_collisions s).player.ent.dir = (0, 0) ∧
    (handle_collisions s).state = Mode.playing ∧
    (handle_collisions s).power_timer = 0 ∧
    (handle_collisions s).ghosts.length = s.ghosts.length ∧
    ∀ i g', (handle_collisions s).ghosts.get? i = some g' →
      g'.ent.col = ((ghostStarts.getD (i % ghostStarts.length) (0, 0)).1 : ℚ) ∧
      g'.ent.row = ((ghostStarts.getD (i % ghostStarts.length) (0, 0)).2 : ℚ) ∧
      g'.ent.dir = (0, 0) ∧ g'.frightened = false ∧ g'.eaten = false := by
  obtain ⟨p', gl, heq, hl, hlen⟩ := collide_aux_capture (pcellOf s) s.ghosts s [] h
  unfold handle_collisions reviveAll
  rw [heq]
  have hmapid : ((lose_life { s with player := p', ghosts := gl }).ghosts.map reviveGhost) =
      (lose_life { s with player := p', ghosts := gl }).ghosts := by
    have hall : ∀ x ∈ (lose_life { s with player := p', ghosts := gl }).ghosts,
        reviveGhost x = x := by
      intro x hx
      apply reviveGhost_of_not_eaten
      unfold lose_life at hx
      simp only [List.mem_map] at hx
      obtain ⟨ig, _, hEq⟩ := hx
      rw [← hEq]
    calc (lose_life { s with player := p', ghosts := gl }).ghosts.map reviveGhost
        = (lose_life { s with player := p', ghosts := gl }).ghosts.map id :=
          List.map_congr_left hall
      _ = _ := List.map_id _
  refine ⟨?_, rfl, rfl, rfl, rfl, rfl, ?_, ?_⟩
  · show p'.lives - 1 = s.player.lives - 1
    rw [hl]
  · show ((lose_life { s with player := p', ghosts := gl }).ghosts.map reviveGhost).length
        = s.ghosts.length
    rw [hmapid]
    unfold lose_life
    simp only [List.length_map, List.enum_length]
    simpa using hlen
  · intro i g' hget
    show _ ∧ _ ∧ _ ∧ _ ∧ _
    rw [hmapid] at hget
    unfold lose_life at hget
    simp only [List.get?_map, List.get?_enum] at hget
    cases hg0 : gl.get? i with
    | none => rw [hg0] at hget; exact absurd hget (by simp)
    | some g0 =>
      rw [hg0] at hget
      obtain rfl := Option.some.inj hget
      exact ⟨rfl, rfl, rfl, rfl, rfl⟩

/-- Concrete NORMAL pursuer standing on the player's cell. -/
def captureState : GameState :=
  { maze := ⟨∅, ∅⟩,
    player := mkPlayer (1, 1),
    ghosts := [mkGhost (1, 1)],
    state := Mode.playing,
    power_timer := 0 }

/-- Witness for C7 at a concrete capture. -/
theorem normal_capture_spec_witness :
    (handle_collisions captureState).player.lives = captureState.player.lives - 1 ∧
    (handle_collisions captureState).player.ent.col = (playerStart.1 : ℚ) ∧
    (handle_collisions captureState).player.ent.dir = (0, 0) ∧
    (handle_collisions captureState).state = Mode.playing ∧
    (handle_collisions captureState).power_timer = 0 ∧
    (handle_collisions captureState).ghosts.length = captureState.ghosts.length := by
  have h := normal_capture_spec captureState
    ⟨mkGhost (1, 1), List.mem_singleton.mpr rfl, by with_unfolding_all decide, rfl, rfl⟩
  exact ⟨h.1, h.2.1, h.2.2.2.1, h.2.2.2.2.1, h.2.2.2.2.2.1, h.2.2.2.2.2.2.1⟩

/-- The collision loop never touches the maze. -/
theorem collide_aux_maze (pcell : ℤ × ℤ) (rest : List Ghost) :
    ∀ (s : GameState) (done : List Ghost),
      (collide_aux pcell s rest done).maze = s.maze := by
  induction rest with
  | nil => intro s done; rfl
  | cons g gs ih =>
    intro s done
    rw [collide_aux_cons]
    split_ifs with h1 h2 h3
    · exact ih _ _
    · rfl
    · exact ih _ _
    · exact ih _ _

/-- `handle_collisions` never touches the maze. -/
theorem handle_collisions_maze (s : GameState) :
    (handle_collisions s).maze = s.maze := by
  unfold handle_collisions reviveAll
  exact collide_aux_maze _ _ _ _

/-- The collision loop decrements lives at most once. -/
theorem collide_aux_lives (pcell : ℤ × ℤ) (rest : List Ghost) :
    ∀ (s : GameState) (done : List Ghost),
      (collide_aux pcell s rest done).player.lives = s.player.lives ∨
      (collide_aux pcell s rest done).player.lives = s.player.lives - 1 := by
  induction rest with
  | nil => intro s done; left; rfl
  | cons g gs ih =>
    intro s done
    rw [collide_aux_cons]
    split_ifs with h1 h2 h3
    · exact ih _ _
    · right; rfl
    · exact ih _ _
    · exact ih _ _

/-- `handle_collisions` decrements lives at most once. -/
theorem handle_collisions_lives (s : GameState) :
    (handle_collisions s).player.lives = s.player.lives ∨
    (handle_collisions s).player.lives = s.player.lives - 1 := by
  unfold handle_collisions reviveAll
  exact collide_aux_lives _ _ _ _

/-- With no pursuer on the player's cell, collisions reduce to revival. -/
theorem handle_collisions_clean (s : GameState)
    (h : ∀ g ∈ s.ghosts, gcellOf g ≠ pcellOf s) :
    handle_collisions s = { s with ghosts := s.ghosts.map reviveGhost } := by
  unfold handle_collisions reviveAll
  rw [collide_aux_clean _ _ _ _ h]
  simp

/-- A false power trigger leaves the state unchanged. -/
theorem powerPhase_false (a : GameState) : powerPhase (a, false) = a := by
  unfold powerPhase
  simp

/-- A power trigger activates power mode. -/
theorem powerPhase_true (a : GameState) : powerPhase (a, true) = set_power_mode a := by
  unfold powerPhase
  simp

/-- With both collectible sets empty the player phase only moves. -/
theorem moveEatPhase_empty (s : GameState) (dt : ℚ)
    (hp : s.maze.pellets = ∅) (hq : s.maze.power_pellets = ∅) :
    moveEatPhase s dt =
      ({ s with player :=
          { s.player with ent := update_move (turnStep s.player.ent s.player.next_dir) dt } },
       false) := by
  have hm : s.maze = (⟨∅, ∅⟩ : MazeState) := by
    rw [show s.maze = (⟨s.maze.pellets, s.maze.power_pellets⟩ : MazeState) from rfl, hp, hq]
  unfold moveEatPhase player_update
  rw [hp, hq]
  simp [Finset.not_mem_empty, hm]

/-- The pursuer phase does not touch the player. -/
theorem ghostPhase_player (s : GameState) (dt : ℚ)
    (rng : ℕ → List (ℤ × ℤ) → List (ℤ × ℤ)) :
    (ghostPhase s dt rng).player = s.player := rfl

/-- The pursuer phase does not touch the maze. -/
theorem ghostPhase_maze (s : GameState) (dt : ℚ)
    (rng : ℕ → List (ℤ × ℤ) → List (ℤ × ℤ)) :
    (ghostPhase s dt rng).maze = s.maze := rfl

/-- C8: whenever both collectible sets are empty at the round-clear check
(the state `Game.update` line 409 reads: after the player has eaten and
collisions are resolved within the same tick), the tick performs exactly
one soft reset — fresh maze, fresh agents at their start cells, zero
power timer, mode set to PLAYING by the reset and overridden to GAME_OVER
only by the separate lives-exhausted transition of the same tick — after
which the player's score and lives are exactly equal to their values
right before the reset. -/
theorem tick_round_clear (s : GameState) (inp : Option (ℤ × ℤ)) (dt : ℚ)
    (rng : ℕ → List (ℤ × ℤ) → List (ℤ × ℤ))
    (hp : (handle_collisions
      (ghostPhase (powerPhase (moveEatPhase (inputPhase s inp) dt)) dt rng)).maze.pellets
        = ∅)
    (hq : (handle_collisions
      (ghostPhase (powerPhase (moveEatPhase (inputPhase s inp) dt)) dt rng)).maze.power_pellets
        = ∅) :
    (tick s inp dt rng).maze = initMaze ∧
    (tick s inp dt rng).ghosts = freshGhosts ∧
    (tick s inp dt rng).power_timer = 0 ∧
    (tick s inp dt rng).player.ent = freshPlayer.ent ∧
    (tick s inp dt rng).player.score =
      (handle_collisions
        (ghostPhase (powerPhase (moveEatPhase (inputPhase s inp) dt)) dt rng)).player.score ∧
    (tick s inp dt rng).player.lives =
      (handle_collisions
        (ghostPhase (powerPhase (moveEatPhase (inputPhase s inp) dt)) dt rng)).player.lives ∧
    (tick s inp dt rng).state =
      (if (handle_collisions
        (ghostPhase (powerPhase (moveEatPhase (inputPhase s inp) dt)) dt rng)).player.lives ≤ 0
       then Mode.gameover else Mode.playing) := by
  have hclear : clearPhase (handle_collisions
      (ghostPhase (powerPhase (moveEatPhase (inputPhase s inp) dt)) dt rng)) =
      reset_level_soft (handle_collisions
        (ghostPhase (powerPhase (moveEatPhase (inputPhase s inp) dt)) dt rng)) := by
    unfold clearPhase
    rw [if_pos ⟨hp, hq⟩]
  by_cases hl : (handle_collisions
      (ghostPhase (powerPhase (moveEatPhase (inputPhase s inp) dt)) dt rng)).player.lives ≤ 0
  · have hgo : gameOverPhase (reset_level_soft (handle_collisions
        (ghostPhase (powerPhase (moveEatPhase (inputPhase s inp) dt)) dt rng))) =
        { reset_level_soft (handle_collisions
            (ghostPhase (powerPhase (moveEatPhase (inputPhase s inp) dt)) dt rng)) with
          state := Mode.gameover } := by
      unfold gameOverPhase
      rw [if_pos]
      exact hl
    have htimer : update_power_timer
        { reset_level_soft (handle_collisions
            (ghostPhase (powerPhase (moveEatPhase (inputPhase s inp) dt)) dt rng)) with
          state := Mode.gameover } dt =
        { reset_level_soft (handle_collisions
            (ghostPhase (powerPhase (moveEatPhase (inputPhase s inp) dt)) dt rng)) with
          state := Mode.gameover } := by
      unfold update_power_timer
      rw [if_neg]
      show ¬ Mode.gameover = Mode.power
      simp
    have hfinal : tick s inp dt rng =
        { reset_level_soft (handle_collisions
            (ghostPhase (powerPhase (moveEatPhase (inputPhase s inp) dt)) dt rng)) with
          state := Mode.gameover } := by
      unfold tick
      rw [hclear, hgo, htimer]
    rw [hfinal, if_pos hl]
    exact ⟨rfl, rfl, rfl, rfl, rfl, rfl, rfl⟩
  · have hgo : gameOverPhase (reset_level_soft (handle_collisions
        (ghostPhase (powerPhase (moveEatPhase (inputPhase s inp) dt)) dt rng))) =
        reset_level_soft (handle_collisions
          (ghostPhase (powerPhase (moveEatPhase (inputPhase s inp) dt)) dt rng)) := by
      unfold gameOverPhase
      rw [if_neg]
      exact hl
    have htimer : update_power_timer (reset_level_soft (handle_collisions
        (ghostPhase (powerPhase (moveEatPhase (inputPhase s inp) dt)) dt rng))) dt =
        reset_level_soft (handle_collisions
          (ghostPhase (powerPhase (moveEatPhase (inputPhase s inp) dt)) dt rng)) := by
      unfold update_power_timer
      rw [if_neg]
      show ¬ Mode.playing = Mode.power
      simp
    have hfinal : tick s inp dt rng = reset_level_soft (handle_collisions
        (ghostPhase (powerPhase (moveEatPhase (inputPhase s inp) dt)) dt rng)) := by
      unfold tick
      rw [hclear, hgo, htimer]
    rw [hfinal, if_neg hl]
    exact ⟨rfl, rfl, rfl, rfl, rfl, rfl, rfl⟩

/-- A trivial random source for concrete runs: every shuffle is identity. -/
def rngId : ℕ → List (ℤ × ℤ) → List (ℤ × ℤ) := fun _ l => l

/-- A state whose single remaining pellet is eaten during the tick, so the
collectible sets become empty exactly at the round-clear check. -/
def roundClearState : GameState :=
  { maze := ⟨{((1 : ℤ), (1 : ℤ))}, ∅⟩,
    player := mkPlayer (1, 1),
    ghosts := [mkGhost (13, 12)],
    state := Mode.playing,
    power_timer := 0 }

set_option maxRecDepth 8000 in
/-- Witness for C8 at a tick that eats the last pellet and soft-resets. -/
theorem tick_round_clear_witness :
    (tick roundClearState none (1/60) rngId).maze = initMaze ∧
    (tick roundClearState none (1/60) rngId).ghosts = freshGhosts ∧
    (tick roundClearState none (1/60) rngId).power_timer = 0 ∧
    (tick roundClearState none (1/60) rngId).player.ent = freshPlayer.ent := by
  have h := tick_round_clear roundClearState none (1/60) rngId
    (by with_unfolding_all decide) (by with_unfolding_all decide)
  exact ⟨h.1, h.2.1, h.2.2.1, h.2.2.2.1⟩

/-- The player's rounded cell after the turn attempt and the advance. -/
def cellAfter (p : Player) (dt : ℚ) : ℤ × ℤ :=
  (pyRound (update_move (turnStep p.ent p.next_dir) dt).col,
   pyRound (update_move (turnStep p.ent p.next_dir) dt).row)

/-- Closed form of `Player.update`. -/
theorem player_update_eq (m : MazeState) (p : Player) (dt : ℚ) :
    player_update m p dt =
      (⟨if cellAfter p dt ∈ m.pellets then m.pellets.erase (cellAfter p dt) else m.pellets,
        if cellAfter p dt ∈ m.power_pellets then m.power_pellets.erase (cellAfter p dt)
        else m.power_pellets⟩,
       { p with ent := update_move (turnStep p.ent p.next_dir) dt,
                score := p.score + (if cellAfter p dt ∈ m.pellets then 10 else 0) +
                         (if cellAfter p dt ∈ m.power_pellets then 50 else 0) },
       decide (cellAfter p dt ∈ m.power_pellets)) := by
  unfold player_update cellAfter
  by_cases hpow : (pyRound (update_move (turnStep p.ent p.next_dir) dt).col,
      pyRound (update_move (turnStep p.ent p.next_dir) dt).row) ∈ m.power_pellets <;>
    simp [hpow]

/-- `ghosts_update` preserves the length of the pursuer list. -/
theorem ghosts_update_length (dt : ℚ) (ppos : ℤ × ℤ)
    (rng : ℕ → List (ℤ × ℤ) → List (ℤ × ℤ)) (gs : List Ghost) :
    ∀ k, ((ghosts_update dt ppos rng gs k).1).length = gs.length := by
  induction gs with
  | nil => intro k; rfl
  | cons g tl ih =>
    intro k
    show ((ghost_update g dt ppos (rng k)).1 ::
      (ghosts_update dt ppos rng tl (if (ghost_update g dt ppos (rng k)).2 then k + 1 else k)).1).length = _
    simp [ih]

/-- Every pursuer produced by `ghosts_update` keeps the behavioural flags
and home of the pursuer at the same position. -/
theorem ghosts_update_get? (dt : ℚ) (ppos : ℤ × ℤ)
    (rng : ℕ → List (ℤ × ℤ) → List (ℤ × ℤ)) (gs : List Ghost) :
    ∀ k i g', ((ghosts_update dt ppos rng gs k).1).get? i = some g' →
      ∃ g, gs.get? i = some g ∧ g'.frightened = g.frightened ∧ g'.eaten = g.eaten ∧
        g'.home = g.home := by
  induction gs with
  | nil => intro k i g' h; simp [ghosts_update] at h
  | cons g tl ih =>
    intro k i g' h
    have hcons : ((ghosts_update dt ppos rng (g :: tl) k).1) =
        (ghost_update g dt ppos (rng k)).1 ::
        (ghosts_update dt ppos rng tl
          (if (ghost_update g dt ppos (rng k)).2 then k + 1 else k)).1 := rfl
    rw [hcons] at h
    cases i with
    | zero =>
      obtain rfl := Option.some.inj h
      exact ⟨g, rfl, rfl, rfl, rfl⟩
    | succ n =>
      obtain ⟨g0, hg0, hprop⟩ := ih _ n g' h
      exact ⟨g0, hg0, hprop⟩

/-- Projection lemmas used to chase the tick's phases. -/
theorem ghostPhase_state (s : GameState) (dt : ℚ)
    (rng : ℕ → List (ℤ × ℤ) → List (ℤ × ℤ)) :
    (ghostPhase s dt rng).state = s.state := rfl

/-- The pursuer phase does not touch the power timer. -/
theorem ghostPhase_power_timer (s : GameState) (dt : ℚ)
    (rng : ℕ → List (ℤ × ℤ) → List (ℤ × ℤ)) :
    (ghostPhase s dt rng).power_timer = s.power_timer := rfl

/-- The pursuer phase output list. -/
theorem ghostPhase_ghosts (s : GameState) (dt : ℚ)
    (rng : ℕ → List (ℤ × ℤ) → List (ℤ × ℤ)) :
    (ghostPhase s dt rng).ghosts = (ghosts_update dt (pcellOf s) rng s.ghosts 0).1 := rfl

/-- Power activation does not touch the player. -/
theorem set_power_mode_player (s : GameState) : (set_power_mode s).player = s.player := rfl

/-- Power activation does not touch the maze. -/
theorem set_power_mode_maze (s : GameState) : (set_power_mode s).maze = s.maze := rfl

/-- Power activation sets the POWER mode. -/
theorem set_power_mode_state (s : GameState) : (set_power_mode s).state = Mode.power := rfl

/-- Power activation arms the eight-second timer. -/
theorem set_power_mode_timer (s : GameState) : (set_power_mode s).power_timer = 8 := rfl

/-- Power activation flips exactly the non-eaten pursuers. -/
theorem set_power_mode_ghosts (s : GameState) :
    (set_power_mode s).ghosts = s.ghosts.map powerFlip := rfl

/-- The player phase does not touch the pursuers. -/
theorem moveEatPhase_ghosts (s : GameState) (dt : ℚ) :
    (moveEatPhase s dt).1.ghosts = s.ghosts := rfl

/-- A pursuer whose FRIGHTENED flag is clear stays unfrightened through
home revival. -/
theorem reviveGhost_frightened (g : Ghost) (h : g.frightened = false) :
    (reviveGhost g).frightened = false := by
  unfold reviveGhost
  split_ifs <;> [rfl; exact h]

/-- A state in which the player stands on a power pellet. -/
def powerTickState : GameState :=
  { maze := ⟨{((1 : ℤ), (1 : ℤ))}, {((1 : ℤ), (3 : ℤ))}⟩,
    player := mkPlayer (1, 3),
    ghosts := [],
    state := Mode.playing,
    power_timer := 0 }

set_option maxRecDepth 4000 in
/-- C5 counterexample: the tick consumes the power pellet (score +50, mode
POWER), yet the power timer after the tick is `8 - dt`, not exactly `8.0`,
because `update_power_timer` runs at the end of the same tick. -/
theorem power_timer_after_tick_cex :
    ((1 : ℤ), (3 : ℤ)) ∈ powerTickState.maze.power_pellets ∧
    ((1 : ℤ), (3 : ℤ)) ∉ (tick powerTickState none (1/60) rngId).maze.power_pellets ∧
    (tick powerTickState none (1/60) rngId).state = Mode.power ∧
    (tick powerTickState none (1/60) rngId).player.score =
      powerTickState.player.score + 50 ∧
    (tick powerTickState none (1/60) rngId).power_timer ≠ 8 := by
  refine ⟨?_, ?_, ?_, ?_, ?_⟩ <;> with_unfolding_all decide

/-- The input phase does not touch the pursuers. -/
theorem inputPhase_ghosts (s : GameState) (inp : Option (ℤ × ℤ)) :
    (inputPhase s inp).ghosts = s.ghosts := rfl

/-- Closed form of the player phase. -/
theorem moveEatPhase_eq (s : GameState) (dt : ℚ) :
    moveEatPhase s dt =
      ({ s with
          maze := ⟨if cellAfter s.player dt ∈ s.maze.pellets
                     then s.maze.pellets.erase (cellAfter s.player dt) else s.maze.pellets,
                   if cellAfter s.player dt ∈ s.maze.power_pellets
                     then s.maze.power_pellets.erase (cellAfter s.player dt)
                     else s.maze.power_pellets⟩,
          player := { s.player with
            ent := update_move (turnStep s.player.ent s.player.next_dir) dt,
            score := s.player.score +
                     (if cellAfter s.player dt ∈ s.maze.pellets then 10 else 0) +
                     (if cellAfter s.player dt ∈ s.maze.power_pellets then 50 else 0) } },
       decide (cellAfter s.player dt ∈ s.maze.power_pellets)) := by
  unfold moveEatPhase
  rw [player_update_eq]

/-- C5 (amended): when the player consumes a power pellet during a tick
(and the tick neither clears the maze, nor collides any pursuer with the
player, nor outlasts the fresh timer, `dt < 8`), then after that tick the
mode is POWER, the power timer equals exactly `8.0 - dt` (it is set to 8.0
by the activation and then decremented once by the end-of-tick timer
update), the score has increased by exactly 50, and every pursuer that was
not RETREATING is FRIGHTENED while RETREATING pursuers are not flipped to
FRIGHTENED. -/
theorem tick_power_pellet (s : GameState) (inp : Option (ℤ × ℤ)) (dt : ℚ)
    (rng : ℕ → List (ℤ × ℤ) → List (ℤ × ℤ))
    (hp : (moveEatPhase (inputPhase s inp) dt).2 = true)
    (hnp : cellAfter (inputPhase s inp).player dt ∉ (inputPhase s inp).maze.pellets)
    (hpel : (moveEatPhase (inputPhase s inp) dt).1.maze.pellets ≠ ∅)
    (hcol : ∀ g ∈ (ghostPhase (powerPhase (moveEatPhase (inputPhase s inp) dt)) dt rng).ghosts,
       gcellOf g ≠ pcellOf (ghostPhase (powerPhase (moveEatPhase (inputPhase s inp) dt)) dt rng))
    (hdt : dt < 8)
    (hl : 0 < s.player.lives)
    (hinv : ∀ g ∈ s.ghosts, ¬(g.frightened = true ∧ g.eaten = true)) :
    (tick s inp dt rng).state = Mode.power ∧
    (tick s inp dt rng).power_timer = 8 - dt ∧
    (tick s inp dt rng).player.score = s.player.score + 50 ∧
    ∀ i g g', s.ghosts.get? i = some g → (tick s inp dt rng).ghosts.get? i = some g' →
      (g.eaten = false → g'.frightened = true) ∧
      (g.eaten = true → g'.frightened = false) := by
  have hmem : cellAfter (inputPhase s inp).player dt ∈ (inputPhase s inp).maze.power_pellets := by
    have h := hp
    rw [moveEatPhase_eq] at h
    exact of_decide_eq_true h
  have hpow : powerPhase (moveEatPhase (inputPhase s inp) dt) =
      set_power_mode (moveEatPhase (inputPhase s inp) dt).1 := by
    unfold powerPhase
    rw [if_pos hp]
  have hscoreM : (moveEatPhase (inputPhase s inp) dt).1.player.score = s.player.score + 50 := by
    rw [moveEatPhase_eq]
    show (inputPhase s inp).player.score +
        (if cellAfter (inputPhase s inp).player dt ∈ (inputPhase s inp).maze.pellets
          then 10 else 0) +
        (if cellAfter (inputPhase s inp).player dt ∈ (inputPhase s inp).maze.power_pellets
          then 50 else 0) = s.player.score + 50
    rw [if_neg hnp, if_pos hmem]
    show s.player.score + 0 + 50 = s.player.score + 50
    ring
  have hlivesM : (moveEatPhase (inputPhase s inp) dt).1.player.lives = s.player.lives := by
    rw [moveEatPhase_eq]
    rfl
  have hcollide := handle_collisions_clean _ hcol
  have hmaze4 : (handle_collisions
      (ghostPhase (powerPhase (moveEatPhase (inputPhase s inp) dt)) dt rng)).maze
      = (moveEatPhase (inputPhase s inp) dt).1.maze := by
    rw [handle_collisions_maze, ghostPhase_maze, hpow, set_power_mode_maze]
  have hstate4 : (handle_collisions
      (ghostPhase (powerPhase (moveEatPhase (inputPhase s inp) dt)) dt rng)).state
      = Mode.power := by
    rw [hcollide]
    show (ghostPhase (powerPhase (moveEatPhase (inputPhase s inp) dt)) dt rng).state = _
    rw [ghostPhase_state, hpow, set_power_mode_state]
  have htimer4 : (handle_collisions
      (ghostPhase (powerPhase (moveEatPhase (inputPhase s inp) dt)) dt rng)).power_timer
      = 8 := by
    rw [hcollide]
    show (ghostPhase (powerPhase (moveEatPhase (inputPhase s inp) dt)) dt rng).power_timer = _
    rw [ghostPhase_power_timer, hpow, set_power_mode_timer]
  have hlives4 : (handle_collisions
      (ghostPhase (powerPhase (moveEatPhase (inputPhase s inp) dt)) dt rng)).player.lives
      = s.player.lives := by
    rw [hcollide]
    show (ghostPhase (powerPhase (moveEatPhase (inputPhase s inp) dt)) dt rng).player.lives = _
    rw [ghostPhase_player, hpow, set_power_mode_player, hlivesM]
  have hscore4 : (handle_collisions
      (ghostPhase (powerPhase (moveEatPhase (inputPhase s inp) dt)) dt rng)).player.score
      = s.player.score + 50 := by
    rw [hcollide]
    show (ghostPhase (powerPhase (moveEatPhase (inputPhase s inp) dt)) dt rng).player.score = _
    rw [ghostPhase_player, hpow, set_power_mode_player, hscoreM]
  have hclear : clearPhase (handle_collisions
      (ghostPhase (powerPhase (moveEatPhase (inputPhase s inp) dt)) dt rng))
      = handle_collisions
        (ghostPhase (powerPhase (moveEatPhase (inputPhase s inp) dt)) dt rng) := by
    unfold clearPhase
    rw [if_neg]
    intro hand
    rw [hmaze4] at hand
    exact hpel hand.1
  have hgo : gameOverPhase (handle_collisions
      (ghostPhase (powerPhase (moveEatPhase (inputPhase s inp) dt)) dt rng))
      = handle_collisions
        (ghostPhase (powerPhase (moveEatPhase (inputPhase s inp) dt)) dt rng) := by
    unfold gameOverPhase
    rw [if_neg]
    rw [hlives4]
    omega
  have hfinal : tick s inp dt rng =
      { handle_collisions
          (ghostPhase (powerPhase (moveEatPhase (inputPhase s inp) dt)) dt rng) with
        power_timer := 8 - dt } := by
    unfold tick
    rw [hclear, hgo]
    unfold update_power_timer
    rw [if_pos hstate4, htimer4, if_neg (show ¬ (8 : ℚ) - dt ≤ 0 by linarith)]
  refine ⟨?_, ?_, ?_, ?_⟩
  · rw [hfinal]
    exact hstate4
  · rw [hfinal]
  · rw [hfinal]
    exact hscore4
  · intro i g g' hgi hgi'
    rw [hfinal, hcollide] at hgi'
    have hgi2 : (((ghostPhase (powerPhase (moveEatPhase (inputPhase s inp) dt)) dt
        rng).ghosts.map reviveGhost).get? i) = some g' := hgi'
    rw [List.get?_map] at hgi2
    cases hsg : (ghostPhase (powerPhase (moveEatPhase (inputPhase s inp) dt)) dt
        rng).ghosts.get? i with
    | none => rw [hsg] at hgi2; exact absurd hgi2 (by simp)
    | some g2 =>
      rw [hsg] at hgi2
      obtain rfl := Option.some.inj hgi2
      rw [ghostPhase_ghosts] at hsg
      obtain ⟨gp, hgp, hf2, he2, _⟩ := ghosts_update_get? dt _ rng _ 0 i g2 hsg
      rw [hpow, set_power_mode_ghosts, moveEatPhase_ghosts, inputPhase_ghosts,
          List.get?_map, hgi] at hgp
      obtain rfl := Option.some.inj hgp
      by_cases he : g.eaten = true
      · have hgmem : g ∈ s.ghosts := List.get?_mem hgi
        have hgf : g.frightened = false := by
          cases hb : g.frightened
          · rfl
          · exact absurd ⟨hb, he⟩ (hinv g hgmem)
        have hflip : powerFlip g = g := by
          unfold powerFlip
          rw [if_neg]
          simp [he]
        constructor
        · intro hcontra
          rw [he] at hcontra
          exact absurd hcontra (by simp)
        · intro _
          apply reviveGhost_frightened
          rw [hf2, hflip]
          exact hgf
      · have he' : g.eaten = false := by
          cases hb : g.eaten
          · rfl
          · exact absurd hb he
        have hflip : powerFlip g = { g with frightened := true } := by
          unfold powerFlip
          rw [if_pos he']
        have hg2e : g2.eaten = false := by
          rw [he2, hflip]
          exact he'
        constructor
        · intro _
          rw [reviveGhost_of_not_eaten g2 hg2e, hf2, hflip]
        · intro hcontra
          rw [he'] at hcontra
          exact absurd hcontra (by simp)

/-- Power-pellet witness state with one NORMAL pursuer far from the player. -/
def powerWitState : GameState :=
  { maze := ⟨{((1 : ℤ), (1 : ℤ))}, {((1 : ℤ), (3 : ℤ))}⟩,
    player := mkPlayer (1, 3),
    ghosts := [mkGhost (13, 12)],
    state := Mode.playing,
    power_timer := 0 }

set_option maxRecDepth 8000 in
/-- Witness for the amended C5 at a concrete power-pellet tick. -/
theorem tick_power_pellet_witness :
    (tick powerWitState none (1/60) rngId).state = Mode.power ∧
    (tick powerWitState none (1/60) rngId).power_timer = 8 - 1/60 ∧
    (tick powerWitState none (1/60) rngId).player.score =
      powerWitState.player.score + 50 := by
  have h := tick_power_pellet powerWitState none (1/60) rngId
    (by with_unfolding_all decide) (by with_unfolding_all decide)
    (by with_unfolding_all decide) (by with_unfolding_all decide)
    (by with_unfolding_all decide) (by with_unfolding_all decide)
    (by with_unfolding_all decide)
  exact ⟨h.1, h.2.1, h.2.2.1⟩

/-- Power activation cannot create a frightened-and-eaten pursuer. -/
theorem powerFlip_flags (g : Ghost) (h : ¬(g.frightened = true ∧ g.eaten = true)) :
    ¬((powerFlip g).frightened = true ∧ (powerFlip g).eaten = true) := by
  unfold powerFlip
  split_ifs with he
  · intro hand
    rw [he] at hand
    exact absurd hand.2 (by simp)
  · exact h

/-- Home revival cannot create a frightened-and-eaten pursuer. -/
theorem reviveGhost_flags (g : Ghost) (h : ¬(g.frightened = true ∧ g.eaten = true)) :
    ¬((reviveGhost g).frightened = true ∧ (reviveGhost g).eaten = true) := by
  unfold reviveGhost
  split_ifs
  · intro hand
    exact absurd hand.1 (by simp)
  · exact h

/-- Membership form of the pursuer-phase flag preservation. -/
theorem ghosts_update_mem (dt : ℚ) (ppos : ℤ × ℤ)
    (rng : ℕ → List (ℤ × ℤ) → List (ℤ × ℤ)) (gs : List Ghost) (k : ℕ) (g' : Ghost)
    (h : g' ∈ (ghosts_update dt ppos rng gs k).1) :
    ∃ g ∈ gs, g'.frightened = g.frightened ∧ g'.eaten = g.eaten := by
  obtain ⟨i, hi⟩ := List.mem_iff_get?.mp h
  obtain ⟨g, hg, hf, he, _⟩ := ghosts_update_get? dt ppos rng gs k i g' hi
  exact ⟨g, List.get?_mem hg, hf, he⟩

/-- The collision loop cannot create a frightened-and-eaten pursuer. -/
theorem collide_aux_flags (pcell : ℤ × ℤ) (rest : List Ghost) :
    ∀ (s : GameState) (done : List Ghost),
    (∀ g ∈ rest, ¬(g.frightened = true ∧ g.eaten = true)) →
    (∀ g ∈ done, ¬(g.frightened = true ∧ g.eaten = true)) →
    ∀ g ∈ (collide_aux pcell s rest done).ghosts,
      ¬(g.frightened = true ∧ g.eaten = true) := by
  induction rest with
  | nil =>
    intro s done _ hdone g hg
    rw [collide_aux_nil] at hg
    exact hdone g (List.mem_reverse.mp hg)
  | cons g0 tl ih =>
    intro s done hrest hdone g hg
    rw [collide_aux_cons] at hg
    split_ifs at hg with h1 h2 h3
    · refine ih _ _ (fun x hx => hrest x (List.mem_cons_of_mem _ hx)) ?_ g hg
      intro x hx
      rcases List.mem_cons.mp hx with hx0 | hx1
      · subst hx0
        intro hand
        exact absurd hand.1 (by simp [eat_ghost])
      · exact hdone x hx1
    · unfold lose_life at hg
      simp only [List.mem_map] at hg
      obtain ⟨ig, _, hEq⟩ := hg
      rw [← hEq]
      intro hand
      exact absurd hand.1 (by simp)
    · refine ih _ _ (fun x hx => hrest x (List.mem_cons_of_mem _ hx)) ?_ g hg
      intro x hx
      rcases List.mem_cons.mp hx with hx0 | hx1
      · rw [hx0]; exact hrest g0 (List.mem_cons_self _ _)
      · exact hdone x hx1
    · refine ih _ _ (fun x hx => hrest x (List.mem_cons_of_mem _ hx)) ?_ g hg
      intro x hx
      rcases List.mem_cons.mp hx with hx0 | hx1
      · rw [hx0]; exact hrest g0 (List.mem_cons_self _ _)
      · exact hdone x hx1

/-- A fresh pursuer has both flags clear. -/
theorem freshGhosts_flags (g : Ghost) (h : g ∈ freshGhosts) :
    ¬(g.frightened = true ∧ g.eaten = true) := by
  obtain ⟨c, _, hEq⟩ := List.mem_map.mp h
  rw [← hEq]
  intro hand
  exact absurd hand.1 (by simp [mkGhost])

/-- One tick cannot create a frightened-and-eaten pursuer. -/
theorem tick_flags (s : GameState) (inp : Option (ℤ × ℤ)) (dt : ℚ)
    (rng : ℕ → List (ℤ × ℤ) → List (ℤ × ℤ))
    (h : ∀ g ∈ s.ghosts, ¬(g.frightened = true ∧ g.eaten = true)) :
    ∀ g ∈ (tick s inp dt rng).ghosts, ¬(g.frightened = true ∧ g.eaten = true) := by
  have h2 : ∀ g ∈ (powerPhase (moveEatPhase (inputPhase s inp) dt)).ghosts,
      ¬(g.frightened = true ∧ g.eaten = true) := by
    unfold powerPhase
    split_ifs
    · rw [set_power_mode_ghosts]
      intro g hg
      obtain ⟨g0, hg0, hEq⟩ := List.mem_map.mp hg
      rw [← hEq]
      exact powerFlip_flags g0 (h g0 hg0)
    · exact h
  have h3 : ∀ g ∈ (ghostPhase (powerPhase (moveEatPhase (inputPhase s inp) dt)) dt
      rng).ghosts, ¬(g.frightened = true ∧ g.eaten = true) := by
    rw [ghostPhase_ghosts]
    intro g hg
    obtain ⟨g0, hg0, hf, he⟩ := ghosts_update_mem _ _ _ _ _ _ hg
    rw [hf, he]
    exact h2 g0 hg0
  have h4 : ∀ g ∈ (handle_collisions (ghostPhase (powerPhase
      (moveEatPhase (inputPhase s inp) dt)) dt rng)).ghosts,
      ¬(g.frightened = true ∧ g.eaten = true) := by
    unfold handle_collisions reviveAll
    intro g hg
    simp only [List.mem_map] at hg
    obtain ⟨g0, hg0, hEq⟩ := hg
    rw [← hEq]
    refine reviveGhost_flags g0 (collide_aux_flags _ _ _ [] h3 (by simp) g0 hg0)
  have h5 : ∀ g ∈ (clearPhase (handle_collisions (ghostPhase (powerPhase
      (moveEatPhase (inputPhase s inp) dt)) dt rng))).ghosts,
      ¬(g.frightened = true ∧ g.eaten = true) := by
    unfold clearPhase
    split_ifs
    · exact fun g hg => freshGhosts_flags g hg
    · exact h4
  have h6 : ∀ g ∈ (gameOverPhase (clearPhase (handle_collisions (ghostPhase (powerPhase
      (moveEatPhase (inputPhase s inp) dt)) dt rng)))).ghosts,
      ¬(g.frightened = true ∧ g.eaten = true) := by
    unfold gameOverPhase
    split_ifs
    · exact h5
    · exact h5
  show ∀ g ∈ (update_power_timer _ dt).ghosts, _
  unfold update_power_timer
  split_ifs
  · intro g hg
    simp only [List.mem_map] at hg
    obtain ⟨g0, _, hEq⟩ := hg
    rw [← hEq]
    intro hand
    exact absurd hand.1 (by simp)
  · exact h6
  · exact h6

/-- C10: in every reachable game state no pursuer is FRIGHTENED and
RETREATING (eaten) at the same time: pursuers start with both flags
clear, power activation frightens only non-eaten pursuers, eating a
pursuer sets eaten while clearing FRIGHTENED, and every other transition
clears flags. -/
theorem flags_invariant (s : GameState) (hr : Reachable s) :
    ∀ g ∈ s.ghosts, ¬(g.frightened = true ∧ g.eaten = true) := by
  induction hr with
  | init => exact fun g hg => freshGhosts_flags g hg
  | step s' inp dt rng _ ih => exact tick_flags s' inp dt rng ih

/-- Witness for C10 at the initial state's first pursuer. -/
theorem flags_invariant_witness :
    ¬((freshGhosts.headI).frightened = true ∧ (freshGhosts.headI).eaten = true) :=
  flags_invariant initState Reachable.init freshGhosts.headI
    (by with_unfolding_all decide)

/-- Equality of everything a pursuer's decision or the round controller can
observe: the pursuer list, the maze, the mode, the timer, score and lives
(the player's continuous sub-cell position is deliberately not included). -/
def stateRel (s t : GameState) : Prop :=
  s.ghosts = t.ghosts ∧ s.maze = t.maze ∧ s.state = t.state ∧
  s.power_timer = t.power_timer ∧ s.player.score = t.player.score ∧
  s.player.lives = t.player.lives

/-- The snapshot used by the pursuer phase is exactly the player's rounded
cell after the player's own move. -/
theorem pcell_moveEat (s : GameState) (dt : ℚ) :
    pcellOf (moveEatPhase s dt).1 = cellAfter s.player dt := by
  rw [moveEatPhase_eq]
  rfl

/-- The power phase never moves the player. -/
theorem pcellOf_powerPhase (x : GameState × Bool) :
    pcellOf (powerPhase x) = pcellOf x.1 := by
  unfold powerPhase
  split_ifs <;> rfl

/-- The player phase preserves observational equality given an equal
post-move snapshot. -/
theorem stateRel_moveEat (s t : GameState) (inp : Option (ℤ × ℤ)) (dt : ℚ)
    (hrel : stateRel s t)
    (hcell : cellAfter (inputPhase s inp).player dt =
             cellAfter (inputPhase t inp).player dt) :
    stateRel (moveEatPhase (inputPhase s inp) dt).1 (moveEatPhase (inputPhase t inp) dt).1 ∧
    (moveEatPhase (inputPhase s inp) dt).2 = (moveEatPhase (inputPhase t inp) dt).2 ∧
    pcellOf (moveEatPhase (inputPhase s inp) dt).1 =
      pcellOf (moveEatPhase (inputPhase t inp) dt).1 := by
  obtain ⟨hg, hm, hs, ht, hsc, hlv⟩ := hrel
  have hmaze : (inputPhase s inp).maze = (inputPhase t inp).maze := hm
  have hghosts : (inputPhase s inp).ghosts = (inputPhase t inp).ghosts := hg
  have hstate : (inputPhase s inp).state = (inputPhase t inp).state := hs
  have htimer : (inputPhase s inp).power_timer = (inputPhase t inp).power_timer := ht
  have hscore : (inputPhase s inp).player.score = (inputPhase t inp).player.score := hsc
  have hlives : (inputPhase s inp).player.lives = (inputPhase t inp).player.lives := hlv
  refine ⟨⟨?_, ?_, ?_, ?_, ?_, ?_⟩, ?_, ?_⟩
  · rw [moveEatPhase_eq, moveEatPhase_eq]
    exact hghosts
  · rw [moveEatPhase_eq, moveEatPhase_eq]
    show (⟨_, _⟩ : MazeState) = ⟨_, _⟩
    rw [hcell, hmaze]
  · rw [moveEatPhase_eq, moveEatPhase_eq]
    exact hstate
  · rw [moveEatPhase_eq, moveEatPhase_eq]
    exact htimer
  · rw [moveEatPhase_eq, moveEatPhase_eq]
    show (inputPhase s inp).player.score + _ + _ =
      (inputPhase t inp).player.score + _ + _
    rw [hcell, hmaze, hscore]
  · rw [moveEatPhase_eq, moveEatPhase_eq]
    exact hlives
  · rw [moveEatPhase_eq, moveEatPhase_eq]
    show decide _ = decide _
    rw [hcell, hmaze]
  · rw [pcell_moveEat, pcell_moveEat]
    exact hcell

/-- The power phase preserves observational equality. -/
theorem stateRel_powerPhase (x y : GameState × Bool)
    (hrel : stateRel x.1 y.1) (h2 : x.2 = y.2) :
    stateRel (powerPhase x) (powerPhase y) := by
  obtain ⟨hg, hm, hs, ht, hsc, hlv⟩ := hrel
  unfold powerPhase
  rw [h2]
  split_ifs with hb
  · exact ⟨by rw [set_power_mode_ghosts, set_power_mode_ghosts, hg],
           by rw [set_power_mode_maze, set_power_mode_maze, hm],
           rfl, rfl,
           by rw [set_power_mode_player, set_power_mode_player]; exact hsc,
           by rw [set_power_mode_player, set_power_mode_player]; exact hlv⟩
  · exact ⟨hg, hm, hs, ht, hsc, hlv⟩

/-- The pursuer phase preserves observational equality given an equal
snapshot: every pursuer reads the same snapshot cell. -/
theorem stateRel_ghostPhase (x y : GameState) (dt : ℚ)
    (rng : ℕ → List (ℤ × ℤ) → List (ℤ × ℤ))
    (hrel : stateRel x y) (hcell : pcellOf x = pcellOf y) :
    stateRel (ghostPhase x dt rng) (ghostPhase y dt rng) ∧
    pcellOf (ghostPhase x dt rng) = pcellOf (ghostPhase y dt rng) := by
  obtain ⟨hg, hm, hs, ht, hsc, hlv⟩ := hrel
  refine ⟨⟨?_, hm, hs, ht, hsc, hlv⟩, hcell⟩
  rw [ghostPhase_ghosts, ghostPhase_ghosts, hg, hcell]

/-- The collision loop preserves observational equality. -/
theorem collide_aux_rel (pcell : ℤ × ℤ) (rest : List Ghost) :
    ∀ (s t : GameState) (done : List Ghost), stateRel s t →
      stateRel (collide_aux pcell s rest done) (collide_aux pcell t rest done) := by
  induction rest with
  | nil =>
    intro s t done h
    obtain ⟨hg, hm, hs, ht, hsc, hlv⟩ := h
    rw [collide_aux_nil, collide_aux_nil]
    exact ⟨rfl, hm, hs, ht, hsc, hlv⟩
  | cons g tl ih =>
    intro s t done h
    obtain ⟨hg, hm, hs, ht, hsc, hlv⟩ := h
    rw [collide_aux_cons, collide_aux_cons]
    split_ifs with h1 h2 h3
    · refine ih _ _ _ ⟨hg, hm, hs, ht, ?_, hlv⟩
      show s.player.score + 200 = t.player.score + 200
      rw [hsc]
    · unfold lose_life
      refine ⟨rfl, hm, rfl, rfl, ?_, ?_⟩
      · exact hsc
      · show s.player.lives - 1 = t.player.lives - 1
        rw [hlv]
    · exact ih _ _ _ ⟨hg, hm, hs, ht, hsc, hlv⟩
    · exact ih _ _ _ ⟨hg, hm, hs, ht, hsc, hlv⟩

/-- Collision resolution preserves observational equality given an equal
snapshot. -/
theorem handle_collisions_rel (s t : GameState)
    (hrel : stateRel s t) (hcell : pcellOf s = pcellOf t) :
    stateRel (handle_collisions s) (handle_collisions t) := by
  unfold handle_collisions reviveAll
  rw [← hcell, ← hrel.1]
  obtain ⟨hg, hm, hs, ht, hsc, hlv⟩ := collide_aux_rel (pcellOf s) s.ghosts s t [] hrel
  exact ⟨by rw [hg], hm, hs, ht, hsc, hlv⟩

/-- The round-clear phase preserves observational equality. -/
theorem clearPhase_rel (s t : GameState) (hrel : stateRel s t) :
    stateRel (clearPhase s) (clearPhase t) := by
  obtain ⟨hg, hm, hs, ht, hsc, hlv⟩ := hrel
  unfold clearPhase
  rw [hm]
  split_ifs with hb
  · exact ⟨rfl, rfl, rfl, rfl, hsc, hlv⟩
  · exact ⟨hg, hm, hs, ht, hsc, hlv⟩

/-- The game-over phase preserves observational equality. -/
theorem gameOverPhase_rel (s t : GameState) (hrel : stateRel s t) :
    stateRel (gameOverPhase s) (gameOverPhase t) := by
  obtain ⟨hg, hm, hs, ht, hsc, hlv⟩ := hrel
  unfold gameOverPhase
  rw [hlv]
  split_ifs with hb
  · exact ⟨hg, hm, rfl, ht, hsc, hlv⟩
  · exact ⟨hg, hm, hs, ht, hsc, hlv⟩

/-- The timer phase preserves observational equality. -/
theorem update_power_timer_rel (s t : GameState) (dt : ℚ) (hrel : stateRel s t) :
    stateRel (update_power_timer s dt) (update_power_timer t dt) := by
  obtain ⟨hg, hm, hs, ht, hsc, hlv⟩ := hrel
  unfold update_power_timer
  rw [hs, ht]
  split_ifs with hb1 hb2
  · exact ⟨by rw [hg], hm, rfl, rfl, hsc, hlv⟩
  · exact ⟨hg, hm, rfl, rfl, hsc, hlv⟩
  · exact ⟨hg, hm, hs, ht, hsc, hlv⟩

/-- C9: within a tick the player's position is sampled into a rounded-cell
snapshot once, right after the player's own move and before any pursuer
decides, and everything downstream (pursuer decisions, collisions, round
state) reads only that snapshot: two states that agree on all shared
round state and produce the same snapshot — in particular two equal
states — yield, under the same input and the same random source,
observationally equal post-tick states.  Equal states with an equal random
source therefore produce equal ticks. -/
theorem tick_single_snapshot (s t : GameState) (inp : Option (ℤ × ℤ)) (dt : ℚ)
    (rng : ℕ → List (ℤ × ℤ) → List (ℤ × ℤ))
    (hrel : stateRel s t)
    (hcell : cellAfter (inputPhase s inp).player dt =
             cellAfter (inputPhase t inp).player dt) :
    stateRel (tick s inp dt rng) (tick t inp dt rng) := by
  obtain ⟨hme, htrig, hpc⟩ := stateRel_moveEat s t inp dt hrel hcell
  have hpow := stateRel_powerPhase _ _ hme htrig
  have hpcpow : pcellOf (powerPhase (moveEatPhase (inputPhase s inp) dt)) =
      pcellOf (powerPhase (moveEatPhase (inputPhase t inp) dt)) := by
    rw [pcellOf_powerPhase, pcellOf_powerPhase, hpc]
  obtain ⟨hgp, hpcg⟩ := stateRel_ghostPhase _ _ dt rng hpow hpcpow
  exact update_power_timer_rel _ _ dt
    (gameOverPhase_rel _ _ (clearPhase_rel _ _ (handle_collisions_rel _ _ hgp hpcg)))

/-- Two states differing only in the player's sub-cell offset. -/
def snapA : GameState :=
  { maze := ⟨{((1 : ℤ), (1 : ℤ))}, ∅⟩,
    player := mkPlayer (1, 1),
    ghosts := [mkGhost (13, 12)],
    state := Mode.playing,
    power_timer := 0 }

/-- The same state with the player shifted by a twentieth of a cell. -/
def snapB : GameState :=
  { snapA with player := { snapA.player with ent := { snapA.player.ent with col := 21/20 } } }

set_option maxRecDepth 8000 in
/-- Witness for C9: the sub-cell offset is invisible to the rest of the
tick because only the snapshot cell is read. -/
theorem tick_single_snapshot_witness :
    stateRel (tick snapA none (1/60) rngId) (tick snapB none (1/60) rngId) :=
  tick_single_snapshot snapA snapB none (1/60) rngId
    ⟨rfl, rfl, rfl, rfl, rfl, rfl⟩ (by with_unfolding_all decide)
